import Mathlib

/-!
Shallow embedding of the intent-go normalization and validation pipeline.

Sources embedded here:
* the data model (`NormalizedCommand`, `TPLevel`, the `Intent` and `Side`
  string constants) from the types file;
* `normalizeSymbol` and `parseTPLevels` from the wit.ai transformer;
* `ValidateCommand`, `validateOpenPosition`, `validateClosePosition`,
  `validateTrailingStop`, `validateBreakEven` from validators/command.go.

Modelling conventions: Go `float64` fields become `ℚ` (exact rationals; the
validation rules only compare and add); Go `*T` optional fields become
`Option`; Go string enums (`Intent`, `Side`) stay strings, matching the
source's `type Intent string`.  Go's Unicode-aware `strings.ToUpper`,
`strings.ToLower` and `strings.TrimSpace` are modelled at the ASCII level
(`Char.toUpper`/`Char.toLower` and the ASCII whitespace set), which agrees
with Go on all ASCII inputs, in particular on every string appearing in the
repository's tables and tests.  `strconv.ParseFloat` is modelled by
`goParseFloat?` on the plain decimal grammar (sign, digits, optional
fraction, optional exponent), returning the exact rational value; the hex /
inf / NaN forms accepted by Go are outside this model.
-/

namespace IntentGo

/-! ### Data model (types file) -/

def IntentOpenPosition : String := "open_position"
def IntentClosePosition : String := "close_position"
def IntentViewPositions : String := "view_positions"
def IntentViewOrders : String := "view_orders"
def IntentCancelOrders : String := "cancel_orders"
def IntentCheckBalance : String := "check_balance"
def IntentBreakEven : String := "break_even"
def IntentTrailingStop : String := "trailing_stop"
def IntentUnknown : String := "unknown"

def SideLong : String := "LONG"
def SideShort : String := "SHORT"

/-- TPLevel represents a take profit level for partial closing. -/
structure TPLevel where
  Price : ℚ
  Percentage : ℚ
deriving DecidableEq, Repr

/-- NormalizedCommand, the central record of the pipeline.  `time.Time` is
modelled abstractly as a `Nat` tick; the validator never reads or writes it. -/
structure NormalizedCommand where
  Intent : String
  Confidence : ℚ
  Symbol : String
  Side : Option String
  EntryPrice : Option ℚ
  StopLoss : Option ℚ
  TakeProfit : Option ℚ
  TriggerPrice : Option ℚ
  TPLevels : List TPLevel
  RiskPercent : Option ℚ
  RRRatio : Option ℚ
  CallbackRate : Option ℚ
  Distance : Option ℚ
  Valid : Bool
  Missing : List String
  Errors : List String
  RawInput : String
  Language : String
  Timestamp : Nat
deriving DecidableEq, Repr

/-! ### Go string primitives (ASCII model) -/

/-- Go `unicode.IsSpace`, restricted to the ASCII whitespace characters. -/
def isGoSpace (c : Char) : Bool :=
  c == ' ' || c == '\t' || c == '\n' || c == '\x0b' || c == '\x0c' || c == '\r'

/-- Go `strings.TrimSpace` (ASCII model). -/
def goTrimSpace (s : String) : String :=
  String.mk (((s.data.dropWhile isGoSpace).reverse.dropWhile isGoSpace).reverse)

/-- Go `strings.ToLower` (ASCII model). -/
def goToLower (s : String) : String := String.mk (s.data.map Char.toLower)

/-- Go `strings.ToUpper` (ASCII model). -/
def goToUpper (s : String) : String := String.mk (s.data.map Char.toUpper)

/-- Go `strings.HasSuffix`. -/
def goHasSuffix (s suffix : String) : Bool := suffix.data.isSuffixOf s.data

/-- Splitting a character list at every occurrence of `sep`; always returns at
least one (possibly empty) group, like Go `strings.Split` with a one-character
separator. -/
def splitOnChar (sep : Char) : List Char → List (List Char)
  | [] => [[]]
  | c :: cs =>
    match splitOnChar sep cs with
    | [] => [[]]
    | g :: gs => if c = sep then [] :: g :: gs else (c :: g) :: gs

/-- Go `strings.Split` for a one-character separator (the only form used by
the transformer: it splits on "," and on ":"). -/
def goSplit (s : String) (sep : Char) : List String :=
  (splitOnChar sep s.data).map String.mk

/-! ### strconv.ParseFloat model (decimal grammar, exact value) -/

def digitVal? (c : Char) : Option Nat :=
  if '0' ≤ c ∧ c ≤ '9' then some (c.toNat - '0'.toNat) else none

/-- Consume the maximal run of leading decimal digits. -/
def takeDigits : List Char → List Nat × List Char
  | [] => ([], [])
  | c :: cs =>
    match digitVal? c with
    | some d => let (ds, r) := takeDigits cs; (d :: ds, r)
    | none => ([], c :: cs)

def natOfDigits (ds : List Nat) : Nat := ds.foldl (fun a d => a * 10 + d) 0

/-- Model of Go `strconv.ParseFloat(s, 64)` on the decimal grammar:
optional sign, digits with an optional fractional part (at least one digit
overall), optional `e`/`E` exponent with at least one digit and nothing
trailing.  Returns the exact rational value instead of the nearest binary
float. -/
def goParseFloat? (s : String) : Option ℚ :=
  let cs := s.data
  let (sign, cs) : ℚ × List Char :=
    match cs with
    | '+' :: r => (1, r)
    | '-' :: r => (-1, r)
    | r => (1, r)
  let (ip, cs) := takeDigits cs
  let (fp, cs) : List Nat × List Char :=
    match cs with
    | '.' :: r => takeDigits r
    | r => ([], r)
  if ip = [] ∧ fp = [] then none
  else
    let mant : ℚ := (natOfDigits ip : ℚ) + (natOfDigits fp : ℚ) / ((10 : ℚ) ^ fp.length)
    match cs with
    | [] => some (sign * mant)
    | e :: r =>
      if e = 'e' ∨ e = 'E' then
        let (esign, r) : Int × List Char :=
          match r with
          | '+' :: r2 => (1, r2)
          | '-' :: r2 => (-1, r2)
          | r2 => (1, r2)
        let (ed, r) := takeDigits r
        if ed = [] ∨ r ≠ [] then none
        else some (sign * mant * (10 : ℚ) ^ (esign * (natOfDigits ed : Int)))
      else none

/-! ### Symbol normalization (wit.ai transformer) -/

/-- The fixed synonym table of `normalizeSymbol`.  Go's `map[string]string`
is modelled as an association list with pairwise distinct keys; `lookup`
agrees with Go map indexing. -/
def symbolMap : List (String × String) :=
  [("bitcoin", "BTC-USDT"), ("btc", "BTC-USDT"),
   ("ethereum", "ETH-USDT"), ("eth", "ETH-USDT"),
   ("solana", "SOL-USDT"), ("sol", "SOL-USDT"),
   ("bnb", "BNB-USDT"), ("xrp", "XRP-USDT"),
   ("ada", "ADA-USDT"), ("cardano", "ADA-USDT"),
   ("doge", "DOGE-USDT"), ("dogecoin", "DOGE-USDT")]

/-- `normalizeSymbol` from the transformer: look the trimmed, lower-cased
input up in the table; otherwise upper-case the original input (note: the
source reassigns `symbol = strings.ToUpper(symbol)` on the untrimmed
parameter) and append "-USDT" unless that upper-cased string already ends in
"-USDT". -/
def normalizeSymbol (symbol : String) : String :=
  let normalized := goToLower (goTrimSpace symbol)
  match symbolMap.lookup normalized with
  | some mapped => mapped
  | none =>
    let sym := goToUpper symbol
    if ¬ goHasSuffix sym "-USDT" then sym ++ "-USDT" else sym

/-! ### TP level parsing (wit.ai transformer) -/

/-- `parseTPLevels` from the transformer: split on commas; for each part,
trim it and split on colons; keep it exactly when that yields two halves
that both parse as numbers, appending kept levels in order. -/
def parseTPLevels (input : String) : List TPLevel :=
  let parts := goSplit input ','
  parts.foldl
    (fun levels part =>
      let pricePct := goSplit (goTrimSpace part) ':'
      match pricePct with
      | [a, b] =>
        match goParseFloat? a, goParseFloat? b with
        | some price, some pct => levels ++ [{ Price := price, Percentage := pct }]
        | _, _ => levels
      | _ => levels)
    []

/-! ### fmt.Sprintf "%.1f" model -/

/-- Round a rational to the nearest integer, ties to even (the rounding Go's
`fmt` applies when shortening to a fixed number of decimals). -/
def roundHalfEven (q : ℚ) : Int :=
  let f := q.floor
  let frac := q - (f : ℚ)
  if frac < 1 / 2 then f
  else if 1 / 2 < frac then f + 1
  else if f % 2 = 0 then f else f + 1

/-- Model of `fmt.Sprintf("%.1f", q)`: the value rounded to one decimal
place, printed with exactly one fractional digit. -/
def sprintf1f (q : ℚ) : String :=
  let n := roundHalfEven (q * 10)
  let a := n.natAbs
  let core := Nat.repr (a / 10) ++ "." ++ Nat.repr (a % 10)
  if n < 0 then "-" ++ core else core

/-! ### Validator (validators/command.go) -/

/-- One Go statement pair `cmd.Missing = append(cmd.Missing, f); cmd.Valid = false`. -/
def addMissing (f : String) (cmd : NormalizedCommand) : NormalizedCommand :=
  { cmd with Missing := cmd.Missing ++ [f], Valid := false }

/-- One Go statement pair `cmd.Errors = append(cmd.Errors, e); cmd.Valid = false`. -/
def addError (e : String) (cmd : NormalizedCommand) : NormalizedCommand :=
  { cmd with Errors := cmd.Errors ++ [e], Valid := false }

/-- The Go loop `for _, tp := range cmd.TPLevels { totalPct += tp.Percentage }`. -/
def totalPercentage (levels : List TPLevel) : ℚ :=
  levels.foldl (fun acc tp => acc + tp.Percentage) 0

/-- `validateOpenPosition`.  The checks read only fields the appends never
write (appends touch `Missing`, `Errors`, `Valid` only), so each condition is
stated on the incoming `cmd`, exactly the values the Go code observes. -/
def validateOpenPosition (cmd : NormalizedCommand) : NormalizedCommand :=
  -- Required: symbol, side, entry price, stop loss, risk
  let c := if cmd.Symbol = "" then addMissing "symbol" cmd else cmd
  let c := if cmd.Side = none then addMissing "side" c else c
  let c := if cmd.EntryPrice = none then addMissing "entry_price" c else c
  let c := if cmd.StopLoss = none then addMissing "stop_loss" c else c
  let c := if cmd.RiskPercent = none then addMissing "risk_percent" c else c
  -- Validate ranges: RiskPercent != nil && (*RiskPercent <= 0 || *RiskPercent > 100)
  let c :=
    match cmd.RiskPercent with
    | some r => if r ≤ 0 ∨ 100 < r then addError "risk_percent must be between 0 and 100" c else c
    | none => c
  -- Validate price logic: Side != nil && EntryPrice != nil && StopLoss != nil
  let c :=
    match cmd.Side, cmd.EntryPrice, cmd.StopLoss with
    | some s, some ep, some sl =>
      -- *Side == SideLong && *StopLoss >= *EntryPrice
      let c := if s = SideLong ∧ ep ≤ sl then addError "stop_loss must be below entry_price for LONG" c else c
      -- *Side == SideShort && *StopLoss <= *EntryPrice
      if s = SideShort ∧ sl ≤ ep then addError "stop_loss must be above entry_price for SHORT" c else c
    | _, _, _ => c
  -- Validate TP levels: len(cmd.TPLevels) > 0
  if 0 < cmd.TPLevels.length then
    let totalPct := totalPercentage cmd.TPLevels
    if 100 < totalPct then
      addError ("TP percentages sum to " ++ sprintf1f totalPct ++ "%, cannot exceed 100%") c
    else c
  else c

/-- `validateClosePosition`: symbol is required. -/
def validateClosePosition (cmd : NormalizedCommand) : NormalizedCommand :=
  if cmd.Symbol = "" then addMissing "symbol" cmd else cmd

/-- `validateTrailingStop`: symbol, trigger price, and callback rate or distance. -/
def validateTrailingStop (cmd : NormalizedCommand) : NormalizedCommand :=
  let c := if cmd.Symbol = "" then addMissing "symbol" cmd else cmd
  let c := if cmd.TriggerPrice = none then addMissing "trigger_price" c else c
  if cmd.CallbackRate = none ∧ cmd.Distance = none then addMissing "callback_rate or distance" c else c

/-- `validateBreakEven`: symbol is required. -/
def validateBreakEven (cmd : NormalizedCommand) : NormalizedCommand :=
  if cmd.Symbol = "" then addMissing "symbol" cmd else cmd

/-- `ValidateCommand`: reset `Valid`/`Missing`/`Errors`, then dispatch on the
intent; Go's `switch` on a string becomes the equality chain below. -/
def ValidateCommand (cmd0 : NormalizedCommand) : NormalizedCommand :=
  let cmd := { cmd0 with Valid := true, Missing := ([] : List String), Errors := ([] : List String) }
  if cmd.Intent = IntentOpenPosition then validateOpenPosition cmd
  else if cmd.Intent = IntentClosePosition then validateClosePosition cmd
  else if cmd.Intent = IntentTrailingStop then validateTrailingStop cmd
  else if cmd.Intent = IntentBreakEven then validateBreakEven cmd
  else if cmd.Intent = IntentCancelOrders ∨ cmd.Intent = IntentViewPositions ∨
          cmd.Intent = IntentViewOrders ∨ cmd.Intent = IntentCheckBalance then
    -- These intents don't require validation (optional symbol filter)
    cmd
  else
    { cmd with Valid := false, Errors := cmd.Errors ++ ["unknown intent: " ++ cmd.Intent] }

/-! ### Declarative characterizations of the validator -/

/-- The missing-field entries `validateOpenPosition` produces, in check order. -/
def openMissing (cmd : NormalizedCommand) : List String :=
  (if cmd.Symbol = "" then ["symbol"] else []) ++
  (if cmd.Side = none then ["side"] else []) ++
  (if cmd.EntryPrice = none then ["entry_price"] else []) ++
  (if cmd.StopLoss = none then ["stop_loss"] else []) ++
  (if cmd.RiskPercent = none then ["risk_percent"] else [])

/-- The error entries of the risk-percent range check. -/
def riskErrors (cmd : NormalizedCommand) : List String :=
  match cmd.RiskPercent with
  | some r => if r ≤ 0 ∨ 100 < r then ["risk_percent must be between 0 and 100"] else []
  | none => []

/-- The error entries of the price-logic check. -/
def priceErrors (cmd : NormalizedCommand) : List String :=
  match cmd.Side, cmd.EntryPrice, cmd.StopLoss with
  | some s, some ep, some sl =>
    (if s = SideLong ∧ ep ≤ sl then ["stop_loss must be below entry_price for LONG"] else []) ++
    (if s = SideShort ∧ sl ≤ ep then ["stop_loss must be above entry_price for SHORT"] else [])
  | _, _, _ => []

/-- The error entries of the TP-percentage check. -/
def tpErrors (cmd : NormalizedCommand) : List String :=
  if 0 < cmd.TPLevels.length then
    if 100 < totalPercentage cmd.TPLevels then
      ["TP percentages sum to " ++ sprintf1f (totalPercentage cmd.TPLevels) ++ "%, cannot exceed 100%"]
    else []
  else []

/-- All error entries `validateOpenPosition` produces, in check order. -/
def openErrors (cmd : NormalizedCommand) : List String :=
  riskErrors cmd ++ priceErrors cmd ++ tpErrors cmd

/-- The missing-field entries `validateTrailingStop` produces, in check order. -/
def trailingMissing (cmd : NormalizedCommand) : List String :=
  (if cmd.Symbol = "" then ["symbol"] else []) ++
  (if cmd.TriggerPrice = none then ["trigger_price"] else []) ++
  (if cmd.CallbackRate = none ∧ cmd.Distance = none then ["callback_rate or distance"] else [])

/-- The missing-field entries of the symbol-only validators. -/
def symbolMissing (cmd : NormalizedCommand) : List String :=
  if cmd.Symbol = "" then ["symbol"] else []

@[simp] lemma openMissing_update (cmd : NormalizedCommand) (i v m e) :
    openMissing { cmd with Intent := i, Valid := v, Missing := m, Errors := e } =
      openMissing cmd := rfl

@[simp] lemma openErrors_update (cmd : NormalizedCommand) (i v m e) :
    openErrors { cmd with Intent := i, Valid := v, Missing := m, Errors := e } =
      openErrors cmd := rfl

@[simp] lemma trailingMissing_update (cmd : NormalizedCommand) (i v m e) :
    trailingMissing { cmd with Intent := i, Valid := v, Missing := m, Errors := e } =
      trailingMissing cmd := rfl

@[simp] lemma symbolMissing_update (cmd : NormalizedCommand) (i v m e) :
    symbolMissing { cmd with Intent := i, Valid := v, Missing := m, Errors := e } =
      symbolMissing cmd := rfl

lemma if_addMissing (cond : Prop) [Decidable cond] (f : String) (c : NormalizedCommand) :
    (if cond then addMissing f c else c) =
      { c with Missing := c.Missing ++ (if cond then [f] else []),
               Valid := c.Valid && !(decide cond) } := by
  split_ifs with h <;> simp [addMissing, h]

lemma if_addError (cond : Prop) [Decidable cond] (e : String) (c : NormalizedCommand) :
    (if cond then addError e c else c) =
      { c with Errors := c.Errors ++ (if cond then [e] else []),
               Valid := c.Valid && !(decide cond) } := by
  split_ifs with h <;> simp [addError, h]

lemma isEmpty_if_singleton (cond : Prop) [Decidable cond] (x : String) :
    (if cond then [x] else ([] : List String)).isEmpty = !(decide cond) := by
  split_ifs with h <;> simp [h]

lemma isEmpty_append (l1 l2 : List String) : (l1 ++ l2).isEmpty = (l1.isEmpty && l2.isEmpty) := by
  cases l1 <;> cases l2 <;> rfl

set_option maxHeartbeats 1000000 in
lemma validateOpenPosition_spec (cmd : NormalizedCommand) :
    validateOpenPosition cmd =
      { cmd with
        Missing := cmd.Missing ++ openMissing cmd,
        Errors := cmd.Errors ++ openErrors cmd,
        Valid := cmd.Valid && ((openMissing cmd).isEmpty && (openErrors cmd).isEmpty) } := by
  obtain ⟨intent, conf, sym, side, ep, sl, tp, trig, tpl, rp, rr, cb, dist, valid, missing, errors, raw, lang, ts⟩ := cmd
  cases side <;> cases ep <;> cases sl <;> cases rp <;>
    (unfold validateOpenPosition openMissing openErrors riskErrors priceErrors tpErrors
     simp only [if_addMissing, if_addError]
     split_ifs <;>
       simp_all [isEmpty_append, isEmpty_if_singleton, Bool.and_assoc, List.append_assoc] <;>
         tauto)

lemma validateClosePosition_spec (cmd : NormalizedCommand) :
    validateClosePosition cmd =
      { cmd with
        Missing := cmd.Missing ++ symbolMissing cmd,
        Valid := cmd.Valid && (symbolMissing cmd).isEmpty } := by
  unfold validateClosePosition symbolMissing
  split_ifs <;> simp_all [addMissing]

lemma validateBreakEven_spec (cmd : NormalizedCommand) :
    validateBreakEven cmd =
      { cmd with
        Missing := cmd.Missing ++ symbolMissing cmd,
        Valid := cmd.Valid && (symbolMissing cmd).isEmpty } := by
  unfold validateBreakEven symbolMissing
  split_ifs <;> simp_all [addMissing]

lemma validateTrailingStop_spec (cmd : NormalizedCommand) :
    validateTrailingStop cmd =
      { cmd with
        Missing := cmd.Missing ++ trailingMissing cmd,
        Valid := cmd.Valid && (trailingMissing cmd).isEmpty } := by
  unfold validateTrailingStop trailingMissing
  split_ifs <;> simp_all [addMissing]

/-! ### Dispatch of `ValidateCommand` by intent -/

lemma vc_open (cmd : NormalizedCommand) (h : cmd.Intent = IntentOpenPosition) :
    ValidateCommand cmd =
      { cmd with Valid := (openMissing cmd).isEmpty && (openErrors cmd).isEmpty,
                 Missing := openMissing cmd, Errors := openErrors cmd } := by
  unfold ValidateCommand
  simp [h, validateOpenPosition_spec]

lemma vc_close (cmd : NormalizedCommand) (h : cmd.Intent = IntentClosePosition) :
    ValidateCommand cmd =
      { cmd with Valid := (symbolMissing cmd).isEmpty,
                 Missing := symbolMissing cmd, Errors := [] } := by
  unfold ValidateCommand
  simp [h, IntentClosePosition, IntentOpenPosition, validateClosePosition_spec]

lemma vc_trailing (cmd : NormalizedCommand) (h : cmd.Intent = IntentTrailingStop) :
    ValidateCommand cmd =
      { cmd with Valid := (trailingMissing cmd).isEmpty,
                 Missing := trailingMissing cmd, Errors := [] } := by
  unfold ValidateCommand
  simp [h, IntentTrailingStop, IntentOpenPosition, IntentClosePosition, validateTrailingStop_spec]

lemma vc_breakEven (cmd : NormalizedCommand) (h : cmd.Intent = IntentBreakEven) :
    ValidateCommand cmd =
      { cmd with Valid := (symbolMissing cmd).isEmpty,
                 Missing := symbolMissing cmd, Errors := [] } := by
  unfold ValidateCommand
  simp [h, IntentBreakEven, IntentOpenPosition, IntentClosePosition, IntentTrailingStop,
    validateBreakEven_spec]

lemma vc_pass (cmd : NormalizedCommand)
    (h : cmd.Intent = IntentCancelOrders ∨ cmd.Intent = IntentViewPositions ∨
         cmd.Intent = IntentViewOrders ∨ cmd.Intent = IntentCheckBalance) :
    ValidateCommand cmd = { cmd with Valid := true, Missing := [], Errors := [] } := by
  unfold ValidateCommand
  rcases h with h | h | h | h <;>
    simp [h, IntentCancelOrders, IntentViewPositions, IntentViewOrders, IntentCheckBalance,
      IntentOpenPosition, IntentClosePosition, IntentTrailingStop, IntentBreakEven]

lemma vc_unknown (cmd : NormalizedCommand)
    (h : cmd.Intent ∉ [IntentOpenPosition, IntentClosePosition, IntentTrailingStop,
      IntentBreakEven, IntentCancelOrders, IntentViewPositions, IntentViewOrders,
      IntentCheckBalance]) :
    ValidateCommand cmd =
      { cmd with Valid := false, Missing := [], Errors := ["unknown intent: " ++ cmd.Intent] } := by
  unfold ValidateCommand
  simp only [List.mem_cons, List.mem_singleton, not_or] at h
  obtain ⟨h1, h2, h3, h4, h5, h6, h7, h8⟩ := h
  simp [h1, h2, h3, h4, h5, h6, h7, h8]


/-! ### String discrimination helpers -/

lemma tpMsg_ne_long (t : String) :
    ("TP percentages sum to " ++ t ++ "%, cannot exceed 100%") ≠
      "stop_loss must be below entry_price for LONG" := by
  intro h
  have h2 := congrArg String.data h
  rw [show ("TP percentages sum to " ++ t ++ "%, cannot exceed 100%").data
        = 'T' :: (("P percentages sum to ".data ++ t.data) ++ "%, cannot exceed 100%".data) from rfl] at h2
  rw [show ("stop_loss must be below entry_price for LONG").data
        = 's' :: "top_loss must be below entry_price for LONG".data from rfl] at h2
  injection h2 with h3 _
  exact absurd h3 (by decide)

lemma tpMsg_ne_short (t : String) :
    ("TP percentages sum to " ++ t ++ "%, cannot exceed 100%") ≠
      "stop_loss must be above entry_price for SHORT" := by
  intro h
  have h2 := congrArg String.data h
  rw [show ("TP percentages sum to " ++ t ++ "%, cannot exceed 100%").data
        = 'T' :: (("P percentages sum to ".data ++ t.data) ++ "%, cannot exceed 100%".data) from rfl] at h2
  rw [show ("stop_loss must be above entry_price for SHORT").data
        = 's' :: "top_loss must be above entry_price for SHORT".data from rfl] at h2
  injection h2 with h3 _
  exact absurd h3 (by decide)

lemma tpMsg_ne_risk (t : String) :
    ("TP percentages sum to " ++ t ++ "%, cannot exceed 100%") ≠
      "risk_percent must be between 0 and 100" := by
  intro h
  have h2 := congrArg String.data h
  rw [show ("TP percentages sum to " ++ t ++ "%, cannot exceed 100%").data
        = 'T' :: (("P percentages sum to ".data ++ t.data) ++ "%, cannot exceed 100%".data) from rfl] at h2
  rw [show ("risk_percent must be between 0 and 100").data
        = 'r' :: "isk_percent must be between 0 and 100".data from rfl] at h2
  injection h2 with h3 _
  exact absurd h3 (by decide)

/-! ### Membership in the error parts -/

lemma mem_riskErrors {cmd : NormalizedCommand} {s : String} (h : s ∈ riskErrors cmd) :
    s = "risk_percent must be between 0 and 100" := by
  unfold riskErrors at h
  split at h <;> [skip; simp_all] <;> split_ifs at h <;> simp_all

lemma mem_priceErrors {cmd : NormalizedCommand} {s : String} (h : s ∈ priceErrors cmd) :
    s = "stop_loss must be below entry_price for LONG" ∨
      s = "stop_loss must be above entry_price for SHORT" := by
  unfold priceErrors at h
  split at h <;> simp_all <;> tauto

lemma mem_tpErrors {cmd : NormalizedCommand} {s : String} (h : s ∈ tpErrors cmd) :
    s = "TP percentages sum to " ++ sprintf1f (totalPercentage cmd.TPLevels) ++
          "%, cannot exceed 100%" := by
  unfold tpErrors at h
  split_ifs at h <;> simp_all


/-! ### Claim theorems -/

/-- C1: after `ValidateCommand` returns, `Valid` is true exactly when both
`Missing` and `Errors` are empty, for every command and every intent value. -/
theorem validateCommand_valid_iff_empty (cmd : NormalizedCommand) :
    (ValidateCommand cmd).Valid = true ↔
      ((ValidateCommand cmd).Missing = [] ∧ (ValidateCommand cmd).Errors = []) := by
  by_cases h1 : cmd.Intent = IntentOpenPosition
  · rw [vc_open cmd h1]
    cases hm : openMissing cmd <;> cases he : openErrors cmd <;> simp_all
  by_cases h2 : cmd.Intent = IntentClosePosition
  · rw [vc_close cmd h2]
    cases hm : symbolMissing cmd <;> simp_all
  by_cases h3 : cmd.Intent = IntentTrailingStop
  · rw [vc_trailing cmd h3]
    cases hm : trailingMissing cmd <;> simp_all
  by_cases h4 : cmd.Intent = IntentBreakEven
  · rw [vc_breakEven cmd h4]
    cases hm : symbolMissing cmd <;> simp_all
  by_cases h5 : cmd.Intent = IntentCancelOrders ∨ cmd.Intent = IntentViewPositions ∨
      cmd.Intent = IntentViewOrders ∨ cmd.Intent = IntentCheckBalance
  · rw [vc_pass cmd h5]
    simp
  · have h : cmd.Intent ∉ [IntentOpenPosition, IntentClosePosition, IntentTrailingStop,
        IntentBreakEven, IntentCancelOrders, IntentViewPositions, IntentViewOrders,
        IntentCheckBalance] := by
      simp only [List.mem_cons, List.mem_singleton, not_or]
      push_neg at h5
      exact ⟨h1, h2, h3, h4, h5.1, h5.2.1, h5.2.2.1, h5.2.2.2, by simp⟩
    rw [vc_unknown cmd h]
    simp

/-- C10: `ValidateCommand` is idempotent — it resets `Valid`, `Missing`,
`Errors` before applying any rule and reads only fields it never writes. -/
theorem validateCommand_idempotent (cmd : NormalizedCommand) :
    ValidateCommand (ValidateCommand cmd) = ValidateCommand cmd := by
  by_cases h1 : cmd.Intent = IntentOpenPosition
  · have h1' : (ValidateCommand cmd).Intent = IntentOpenPosition := by rw [vc_open cmd h1]; exact h1
    rw [vc_open _ h1', vc_open cmd h1]
    simp
  by_cases h2 : cmd.Intent = IntentClosePosition
  · have h2' : (ValidateCommand cmd).Intent = IntentClosePosition := by rw [vc_close cmd h2]; exact h2
    rw [vc_close _ h2', vc_close cmd h2]
    simp
  by_cases h3 : cmd.Intent = IntentTrailingStop
  · have h3' : (ValidateCommand cmd).Intent = IntentTrailingStop := by rw [vc_trailing cmd h3]; exact h3
    rw [vc_trailing _ h3', vc_trailing cmd h3]
    simp
  by_cases h4 : cmd.Intent = IntentBreakEven
  · have h4' : (ValidateCommand cmd).Intent = IntentBreakEven := by rw [vc_breakEven cmd h4]; exact h4
    rw [vc_breakEven _ h4', vc_breakEven cmd h4]
    simp
  by_cases h5 : cmd.Intent = IntentCancelOrders ∨ cmd.Intent = IntentViewPositions ∨
      cmd.Intent = IntentViewOrders ∨ cmd.Intent = IntentCheckBalance
  · have h5' : (ValidateCommand cmd).Intent = IntentCancelOrders ∨
        (ValidateCommand cmd).Intent = IntentViewPositions ∨
        (ValidateCommand cmd).Intent = IntentViewOrders ∨
        (ValidateCommand cmd).Intent = IntentCheckBalance := by rw [vc_pass cmd h5]; exact h5
    rw [vc_pass _ h5', vc_pass cmd h5]
  · have h : cmd.Intent ∉ [IntentOpenPosition, IntentClosePosition, IntentTrailingStop,
        IntentBreakEven, IntentCancelOrders, IntentViewPositions, IntentViewOrders,
        IntentCheckBalance] := by
      simp only [List.mem_cons, List.mem_singleton, not_or]
      push_neg at h5
      exact ⟨h1, h2, h3, h4, h5.1, h5.2.1, h5.2.2.1, h5.2.2.2, by simp⟩
    have h' : (ValidateCommand cmd).Intent ∉ [IntentOpenPosition, IntentClosePosition,
        IntentTrailingStop, IntentBreakEven, IntentCancelOrders, IntentViewPositions,
        IntentViewOrders, IntentCheckBalance] := by rw [vc_unknown cmd h]; exact h
    rw [vc_unknown _ h', vc_unknown cmd h]

/-- C8: an unrecognized intent (anything outside the eight cased values,
including the zero value left by the transformer and "unknown") yields
`Valid = false`, exactly the single error "unknown intent: " followed by the
intent value, and no missing-field entries. -/
theorem validateCommand_unknown_intent (cmd : NormalizedCommand)
    (h : cmd.Intent ∉ [IntentOpenPosition, IntentClosePosition, IntentTrailingStop,
      IntentBreakEven, IntentCancelOrders, IntentViewPositions, IntentViewOrders,
      IntentCheckBalance]) :
    (ValidateCommand cmd).Valid = false ∧
      (ValidateCommand cmd).Errors = ["unknown intent: " ++ cmd.Intent] ∧
      (ValidateCommand cmd).Missing = [] := by
  rw [vc_unknown cmd h]
  exact ⟨rfl, rfl, rfl⟩


/-- C2: for open_position, `Missing` receives exactly one entry per absent
required field, in the order symbol, side, entry_price, stop_loss,
risk_percent, with no short-circuit; each absence forces `Valid = false`, and
the error checks still run (the final `Errors` value is the full
`openErrors`). -/
theorem validateCommand_open_missing (cmd : NormalizedCommand)
    (h : cmd.Intent = IntentOpenPosition) :
    (ValidateCommand cmd).Missing =
        (if cmd.Symbol = "" then ["symbol"] else []) ++
        (if cmd.Side = none then ["side"] else []) ++
        (if cmd.EntryPrice = none then ["entry_price"] else []) ++
        (if cmd.StopLoss = none then ["stop_loss"] else []) ++
        (if cmd.RiskPercent = none then ["risk_percent"] else []) ∧
      ((cmd.Symbol = "" ∨ cmd.Side = none ∨ cmd.EntryPrice = none ∨
          cmd.StopLoss = none ∨ cmd.RiskPercent = none) →
        (ValidateCommand cmd).Valid = false) ∧
      (ValidateCommand cmd).Errors = openErrors cmd := by
  rw [vc_open cmd h]
  refine ⟨rfl, ?_, rfl⟩
  intro habs
  have hne : openMissing cmd ≠ [] := by
    unfold openMissing
    rcases habs with h' | h' | h' | h' | h' <;> simp [h']
  cases hm : openMissing cmd <;> simp_all

/-- C6: for trailing_stop, symbol and trigger_price are individually
required, and exactly when both callback_rate and distance are absent the
single entry "callback_rate or distance" is appended (once, not twice) with
`Valid = false`. -/
theorem validateCommand_trailing_missing (cmd : NormalizedCommand)
    (h : cmd.Intent = IntentTrailingStop) :
    (ValidateCommand cmd).Missing =
        (if cmd.Symbol = "" then ["symbol"] else []) ++
        (if cmd.TriggerPrice = none then ["trigger_price"] else []) ++
        (if cmd.CallbackRate = none ∧ cmd.Distance = none then ["callback_rate or distance"] else []) ∧
      ((cmd.CallbackRate = none ∧ cmd.Distance = none) → (ValidateCommand cmd).Valid = false) ∧
      ((ValidateCommand cmd).Missing.count "callback_rate or distance" =
        if cmd.CallbackRate = none ∧ cmd.Distance = none then 1 else 0) := by
  rw [vc_trailing cmd h]
  refine ⟨rfl, ?_, ?_⟩
  · intro hcd
    have hne : trailingMissing cmd ≠ [] := by
      unfold trailingMissing
      simp [hcd]
    cases hm : trailingMissing cmd <;> simp_all
  · show (trailingMissing cmd).count _ = _
    unfold trailingMissing
    split_ifs <;> simp_all [List.count_append]


/-! ### Error membership helpers -/

lemma valid_false_of_mem_openErrors (cmd : NormalizedCommand)
    (h : cmd.Intent = IntentOpenPosition) {x : String} (hx : x ∈ openErrors cmd) :
    (ValidateCommand cmd).Valid = false := by
  rw [vc_open cmd h]
  show ((openMissing cmd).isEmpty && (openErrors cmd).isEmpty) = false
  cases he : openErrors cmd
  · simp [he] at hx
  · simp [he]

lemma long_mem_openErrors_iff (cmd : NormalizedCommand) (s : String) (ep sl : ℚ)
    (hs : cmd.Side = some s) (hep : cmd.EntryPrice = some ep) (hsl : cmd.StopLoss = some sl) :
    ("stop_loss must be below entry_price for LONG" ∈ openErrors cmd) ↔
      (s = SideLong ∧ ep ≤ sl) := by
  have hp : ("stop_loss must be below entry_price for LONG" ∈ priceErrors cmd) ↔
      (s = SideLong ∧ ep ≤ sl) := by
    unfold priceErrors
    rw [hs, hep, hsl]
    dsimp only
    split_ifs <;> simp_all
  constructor
  · intro hmem
    rcases (by simpa [openErrors] using hmem :
        _ ∈ riskErrors cmd ∨ _ ∈ priceErrors cmd ∨ _ ∈ tpErrors cmd) with hm | hm | hm
    · have := mem_riskErrors hm; simp at this
    · exact hp.mp hm
    · exact absurd (mem_tpErrors hm).symm (tpMsg_ne_long _)
  · intro hc
    have : "stop_loss must be below entry_price for LONG" ∈ priceErrors cmd := hp.mpr hc
    simp [openErrors]
    tauto

lemma short_mem_openErrors_iff (cmd : NormalizedCommand) (s : String) (ep sl : ℚ)
    (hs : cmd.Side = some s) (hep : cmd.EntryPrice = some ep) (hsl : cmd.StopLoss = some sl) :
    ("stop_loss must be above entry_price for SHORT" ∈ openErrors cmd) ↔
      (s = SideShort ∧ sl ≤ ep) := by
  have hp : ("stop_loss must be above entry_price for SHORT" ∈ priceErrors cmd) ↔
      (s = SideShort ∧ sl ≤ ep) := by
    unfold priceErrors
    rw [hs, hep, hsl]
    dsimp only
    split_ifs <;> simp_all
  constructor
  · intro hmem
    rcases (by simpa [openErrors] using hmem :
        _ ∈ riskErrors cmd ∨ _ ∈ priceErrors cmd ∨ _ ∈ tpErrors cmd) with hm | hm | hm
    · have := mem_riskErrors hm; simp at this
    · exact hp.mp hm
    · exact absurd (mem_tpErrors hm).symm (tpMsg_ne_short _)
  · intro hc
    have : "stop_loss must be above entry_price for SHORT" ∈ priceErrors cmd := hp.mpr hc
    simp [openErrors]
    tauto

lemma priceErrors_eq_nil_of_absent (cmd : NormalizedCommand)
    (h : cmd.Side = none ∨ cmd.EntryPrice = none ∨ cmd.StopLoss = none) :
    priceErrors cmd = [] := by
  unfold priceErrors
  rcases h with h' | h' | h' <;> rw [h'] <;>
    first
      | rfl
      | (cases cmd.Side <;> cases cmd.EntryPrice <;> cases cmd.StopLoss <;> rfl)


lemma tpMsg_not_mem_riskErrors (cmd : NormalizedCommand) (t : String) :
    ("TP percentages sum to " ++ t ++ "%, cannot exceed 100%") ∉ riskErrors cmd :=
  fun hm => tpMsg_ne_risk t (mem_riskErrors hm)

lemma tpMsg_not_mem_priceErrors (cmd : NormalizedCommand) (t : String) :
    ("TP percentages sum to " ++ t ++ "%, cannot exceed 100%") ∉ priceErrors cmd := by
  intro hm
  rcases mem_priceErrors hm with h' | h'
  · exact tpMsg_ne_long t h'
  · exact tpMsg_ne_short t h'

/-- C3: for open_position with side, entry_price, stop_loss all present, the
LONG error appears exactly when stop_loss >= entry_price (equality included)
and the SHORT error exactly when stop_loss <= entry_price, each forcing
`Valid = false`; when any of the three is absent neither error appears. -/
theorem validateCommand_open_price_logic (cmd : NormalizedCommand)
    (h : cmd.Intent = IntentOpenPosition) :
    (∀ s ep sl, cmd.Side = some s → cmd.EntryPrice = some ep → cmd.StopLoss = some sl →
      (("stop_loss must be below entry_price for LONG" ∈ (ValidateCommand cmd).Errors ↔
          (s = SideLong ∧ ep ≤ sl)) ∧
       ("stop_loss must be above entry_price for SHORT" ∈ (ValidateCommand cmd).Errors ↔
          (s = SideShort ∧ sl ≤ ep)) ∧
       (((s = SideLong ∧ ep ≤ sl) ∨ (s = SideShort ∧ sl ≤ ep)) →
          (ValidateCommand cmd).Valid = false))) ∧
    ((cmd.Side = none ∨ cmd.EntryPrice = none ∨ cmd.StopLoss = none) →
      "stop_loss must be below entry_price for LONG" ∉ (ValidateCommand cmd).Errors ∧
      "stop_loss must be above entry_price for SHORT" ∉ (ValidateCommand cmd).Errors) := by
  have hE : (ValidateCommand cmd).Errors = openErrors cmd := by rw [vc_open cmd h]
  constructor
  · intro s ep sl hs hep hsl
    rw [hE]
    refine ⟨long_mem_openErrors_iff cmd s ep sl hs hep hsl,
            short_mem_openErrors_iff cmd s ep sl hs hep hsl, ?_⟩
    intro hc
    rcases hc with hc | hc
    · exact valid_false_of_mem_openErrors cmd h
        ((long_mem_openErrors_iff cmd s ep sl hs hep hsl).mpr hc)
    · exact valid_false_of_mem_openErrors cmd h
        ((short_mem_openErrors_iff cmd s ep sl hs hep hsl).mpr hc)
  · intro habs
    rw [hE]
    have hnil := priceErrors_eq_nil_of_absent cmd habs
    constructor
    · intro hmem
      rcases (by simpa [openErrors] using hmem :
          _ ∈ riskErrors cmd ∨ _ ∈ priceErrors cmd ∨ _ ∈ tpErrors cmd) with hm | hm | hm
      · have := mem_riskErrors hm; simp at this
      · rw [hnil] at hm; simp at hm
      · exact absurd (mem_tpErrors hm).symm (tpMsg_ne_long _)
    · intro hmem
      rcases (by simpa [openErrors] using hmem :
          _ ∈ riskErrors cmd ∨ _ ∈ priceErrors cmd ∨ _ ∈ tpErrors cmd) with hm | hm | hm
      · have := mem_riskErrors hm; simp at this
      · rw [hnil] at hm; simp at hm
      · exact absurd (mem_tpErrors hm).symm (tpMsg_ne_short _)

/-- C9: for open_position, the error "risk_percent must be between 0 and
100" appears exactly when risk_percent is present and outside (0, 100]
(so 0 errs, 100 does not), forcing `Valid = false`; an absent risk_percent
never produces the range error. -/
theorem validateCommand_open_risk_range (cmd : NormalizedCommand)
    (h : cmd.Intent = IntentOpenPosition) :
    (∀ r, cmd.RiskPercent = some r →
      (("risk_percent must be between 0 and 100" ∈ (ValidateCommand cmd).Errors ↔
          (r ≤ 0 ∨ 100 < r)) ∧
       ((r ≤ 0 ∨ 100 < r) → (ValidateCommand cmd).Valid = false))) ∧
    (cmd.RiskPercent = none →
      "risk_percent must be between 0 and 100" ∉ (ValidateCommand cmd).Errors) := by
  have hE : (ValidateCommand cmd).Errors = openErrors cmd := by rw [vc_open cmd h]
  constructor
  · intro r hr
    have hriff : ("risk_percent must be between 0 and 100" ∈ riskErrors cmd) ↔
        (r ≤ 0 ∨ 100 < r) := by
      unfold riskErrors
      rw [hr]
      dsimp only
      split_ifs <;> simp_all
    have hiff : ("risk_percent must be between 0 and 100" ∈ openErrors cmd) ↔
        (r ≤ 0 ∨ 100 < r) := by
      constructor
      · intro hmem
        rcases (by simpa [openErrors] using hmem :
            _ ∈ riskErrors cmd ∨ _ ∈ priceErrors cmd ∨ _ ∈ tpErrors cmd) with hm | hm | hm
        · exact hriff.mp hm
        · rcases mem_priceErrors hm with h' | h' <;> simp at h'
        · exact absurd (mem_tpErrors hm).symm (tpMsg_ne_risk _)
      · intro hc
        have : "risk_percent must be between 0 and 100" ∈ riskErrors cmd := hriff.mpr hc
        simp [openErrors]
        tauto
    rw [hE]
    exact ⟨hiff, fun hc => valid_false_of_mem_openErrors cmd h (hiff.mpr hc)⟩
  · intro hr
    rw [hE]
    intro hmem
    rcases (by simpa [openErrors] using hmem :
        _ ∈ riskErrors cmd ∨ _ ∈ priceErrors cmd ∨ _ ∈ tpErrors cmd) with hm | hm | hm
    · unfold riskErrors at hm; rw [hr] at hm; simp at hm
    · rcases mem_priceErrors hm with h' | h' <;> simp at h'
    · exact absurd (mem_tpErrors hm).symm (tpMsg_ne_risk _)

/-- C4: for open_position with non-empty tp_levels, summing all percentages
produces, exactly when the sum exceeds 100, the single error "TP percentages
sum to " ++ sum formatted to one decimal ++ "%, cannot exceed 100%" and
`Valid = false`; a sum of at most 100 produces no TP error, and empty
tp_levels are never checked. -/
theorem validateCommand_open_tp_sum (cmd : NormalizedCommand)
    (h : cmd.Intent = IntentOpenPosition) :
    (cmd.TPLevels ≠ [] →
      ((100 < totalPercentage cmd.TPLevels →
         ((ValidateCommand cmd).Errors.count
             ("TP percentages sum to " ++ sprintf1f (totalPercentage cmd.TPLevels) ++
               "%, cannot exceed 100%") = 1 ∧
          (ValidateCommand cmd).Valid = false)) ∧
       (totalPercentage cmd.TPLevels ≤ 100 →
         ∀ t, ("TP percentages sum to " ++ t ++ "%, cannot exceed 100%") ∉
            (ValidateCommand cmd).Errors))) ∧
    (cmd.TPLevels = [] →
      ∀ t, ("TP percentages sum to " ++ t ++ "%, cannot exceed 100%") ∉
         (ValidateCommand cmd).Errors) := by
  have hE : (ValidateCommand cmd).Errors = openErrors cmd := by rw [vc_open cmd h]
  have hno : ∀ t, tpErrors cmd = [] →
      ("TP percentages sum to " ++ t ++ "%, cannot exceed 100%") ∉ openErrors cmd := by
    intro t htp hmem
    rcases (by simpa [openErrors] using hmem :
        _ ∈ riskErrors cmd ∨ _ ∈ priceErrors cmd ∨ _ ∈ tpErrors cmd) with hm | hm | hm
    · exact tpMsg_not_mem_riskErrors cmd t hm
    · exact tpMsg_not_mem_priceErrors cmd t hm
    · rw [htp] at hm; simp at hm
  constructor
  · intro hne
    have hlen : 0 < cmd.TPLevels.length := by
      cases hl : cmd.TPLevels
      · exact absurd hl hne
      · simp [hl]
    constructor
    · intro hsum
      have htp : tpErrors cmd =
          ["TP percentages sum to " ++ sprintf1f (totalPercentage cmd.TPLevels) ++
            "%, cannot exceed 100%"] := by
        unfold tpErrors
        rw [if_pos hlen, if_pos hsum]
      constructor
      · rw [hE]
        unfold openErrors
        rw [List.count_append, List.count_append, htp]
        rw [List.count_eq_zero.mpr (tpMsg_not_mem_riskErrors cmd _),
            List.count_eq_zero.mpr (tpMsg_not_mem_priceErrors cmd _)]
        simp
      · refine valid_false_of_mem_openErrors cmd h (x := "TP percentages sum to " ++
          sprintf1f (totalPercentage cmd.TPLevels) ++ "%, cannot exceed 100%") ?_
        simp [openErrors, htp]
    · intro hsum t
      have htp : tpErrors cmd = [] := by
        unfold tpErrors
        rw [if_pos hlen, if_neg (by exact not_lt.mpr hsum)]
      rw [hE]
      exact hno t htp
  · intro hnil t
    have htp : tpErrors cmd = [] := by
      unfold tpErrors
      rw [if_neg (by simp [hnil])]
    rw [hE]
    exact hno t htp


/-! ### C7: declarative characterization of parseTPLevels -/

/-- The per-token decision of `parseTPLevels`: trim, split on the colon, and
keep the token exactly when that yields two halves that both parse. -/
def tpToken? (part : String) : Option TPLevel :=
  match goSplit (goTrimSpace part) ':' with
  | [a, b] =>
    match goParseFloat? a, goParseFloat? b with
    | some price, some pct => some { Price := price, Percentage := pct }
    | _, _ => none
  | _ => none

lemma parse_step (levels : List TPLevel) (part : String) :
    (let pricePct := goSplit (goTrimSpace part) ':'
     match pricePct with
     | [a, b] =>
       match goParseFloat? a, goParseFloat? b with
       | some price, some pct => levels ++ [{ Price := price, Percentage := pct }]
       | _, _ => levels
     | _ => levels) =
      levels ++ (tpToken? part).toList := by
  unfold tpToken?
  rcases goSplit (goTrimSpace part) ':' with _ | ⟨a, _ | ⟨b, _ | _⟩⟩ <;> try simp
  cases goParseFloat? a <;> cases goParseFloat? b <;> simp

lemma parseTPLevels_foldl (parts : List String) (acc : List TPLevel) :
    parts.foldl
      (fun levels part =>
        let pricePct := goSplit (goTrimSpace part) ':'
        match pricePct with
        | [a, b] =>
          match goParseFloat? a, goParseFloat? b with
          | some price, some pct => levels ++ [{ Price := price, Percentage := pct }]
          | _, _ => levels
        | _ => levels)
      acc = acc ++ parts.filterMap tpToken? := by
  induction parts generalizing acc with
  | nil => simp
  | cons p ps ih =>
    rw [List.foldl_cons, parse_step acc p, ih, List.filterMap_cons]
    cases tpToken? p <;> simp

/-- C7: `parseTPLevels` splits on commas, trims each token, keeps a token
exactly when splitting it on the colon yields two halves that both parse as
numbers, preserves the original order of kept levels (malformed tokens are
dropped silently without shifting valid ones), and yields `[]` on "". -/
theorem parseTPLevels_spec :
    (∀ input, parseTPLevels input = (goSplit input ',').filterMap tpToken?) ∧
      parseTPLevels "" = [] := by
  constructor
  · intro input
    unfold parseTPLevels
    rw [parseTPLevels_foldl]
    rfl
  · rfl

/-! ### C5: the normalizeSymbol fallback -/

/-- C5 counterexample: the input " xyz " is not in the synonym table after
trimming and lower-casing, yet `normalizeSymbol` does NOT return the trimmed
input upper-cased plus "-USDT" ("XYZ-USDT"); the source upper-cases the
untrimmed argument, giving " XYZ -USDT". -/
theorem normalizeSymbol_untrimmed_counterexample :
    symbolMap.lookup (goToLower (goTrimSpace " xyz ")) = none ∧
      normalizeSymbol " xyz " ≠ goToUpper (goTrimSpace " xyz ") ++ "-USDT" ∧
      normalizeSymbol " xyz " = " XYZ -USDT" := by
  refine ⟨by decide, by decide, by decide⟩

/-- C5 amended: for every input whose trimmed, lower-cased form is not in
the synonym table, the result is the ORIGINAL (untrimmed) input upper-cased,
with "-USDT" appended unless that upper-cased string already ends in "-USDT"
(so the case-insensitive suffix check is against the untrimmed text); the
function never fails. -/
theorem normalizeSymbol_fallback (x : String)
    (h : symbolMap.lookup (goToLower (goTrimSpace x)) = none) :
    normalizeSymbol x =
      (if goHasSuffix (goToUpper x) "-USDT" then goToUpper x
       else goToUpper x ++ "-USDT") := by
  unfold normalizeSymbol
  simp only [h]
  by_cases hs : goHasSuffix (goToUpper x) "-USDT" = true <;> simp [hs]

theorem normalizeSymbol_fallback_witness :
    symbolMap.lookup (goToLower (goTrimSpace "xyz")) = none ∧
      normalizeSymbol "xyz" =
        (if goHasSuffix (goToUpper "xyz") "-USDT" then goToUpper "xyz"
         else goToUpper "xyz" ++ "-USDT") :=
  ⟨by decide, normalizeSymbol_fallback "xyz" (by decide)⟩


/-! ### Concrete commands for witnesses -/

/-- A command with every optional field absent and every string empty: the
zero value of the Go struct (as left by the transformer when the
classification result is empty). -/
def emptyCmd : NormalizedCommand :=
  { Intent := "", Confidence := 0, Symbol := "", Side := none, EntryPrice := none,
    StopLoss := none, TakeProfit := none, TriggerPrice := none, TPLevels := [],
    RiskPercent := none, RRRatio := none, CallbackRate := none, Distance := none,
    Valid := false, Missing := [], Errors := [], RawInput := "", Language := "",
    Timestamp := 0 }

def openCmdBare : NormalizedCommand := { emptyCmd with Intent := IntentOpenPosition }

def openCmdLongBadSL : NormalizedCommand :=
  { emptyCmd with
    Intent := IntentOpenPosition, Symbol := "BTC-USDT",
    Side := some SideLong, EntryPrice := some 45000, StopLoss := some 46000,
    RiskPercent := some 2 }

def openCmdTP110 : NormalizedCommand :=
  { emptyCmd with
    Intent := IntentOpenPosition, Symbol := "BTC-USDT",
    Side := some SideLong, EntryPrice := some 45000, StopLoss := some 44500,
    RiskPercent := some 2,
    TPLevels := [{ Price := 61000, Percentage := 60 }, { Price := 62000, Percentage := 50 }] }

def openCmdRiskZero : NormalizedCommand :=
  { emptyCmd with
    Intent := IntentOpenPosition, RiskPercent := some 0 }

def trailingCmdBare : NormalizedCommand := { emptyCmd with Intent := IntentTrailingStop }

/-! ### Witnesses -/

theorem validateCommand_open_missing_witness :
    openCmdBare.Intent = IntentOpenPosition ∧
      ((ValidateCommand openCmdBare).Missing =
          (if openCmdBare.Symbol = "" then ["symbol"] else []) ++
          (if openCmdBare.Side = none then ["side"] else []) ++
          (if openCmdBare.EntryPrice = none then ["entry_price"] else []) ++
          (if openCmdBare.StopLoss = none then ["stop_loss"] else []) ++
          (if openCmdBare.RiskPercent = none then ["risk_percent"] else []) ∧
        ((openCmdBare.Symbol = "" ∨ openCmdBare.Side = none ∨ openCmdBare.EntryPrice = none ∨
            openCmdBare.StopLoss = none ∨ openCmdBare.RiskPercent = none) →
          (ValidateCommand openCmdBare).Valid = false) ∧
        (ValidateCommand openCmdBare).Errors = openErrors openCmdBare) ∧
      (ValidateCommand openCmdBare).Missing =
        ["symbol", "side", "entry_price", "stop_loss", "risk_percent"] :=
  ⟨rfl, validateCommand_open_missing openCmdBare rfl, by decide⟩

theorem validateCommand_open_price_logic_witness :
    openCmdLongBadSL.Intent = IntentOpenPosition ∧
      openCmdLongBadSL.Side = some SideLong ∧
      openCmdLongBadSL.EntryPrice = some 45000 ∧
      openCmdLongBadSL.StopLoss = some 46000 ∧
      ((("stop_loss must be below entry_price for LONG" ∈
            (ValidateCommand openCmdLongBadSL).Errors ↔
          (SideLong = SideLong ∧ (45000 : ℚ) ≤ 46000)) ∧
        ("stop_loss must be above entry_price for SHORT" ∈
            (ValidateCommand openCmdLongBadSL).Errors ↔
          (SideLong = SideShort ∧ (46000 : ℚ) ≤ 45000)) ∧
        (((SideLong = SideLong ∧ (45000 : ℚ) ≤ 46000) ∨
            (SideLong = SideShort ∧ (46000 : ℚ) ≤ 45000)) →
          (ValidateCommand openCmdLongBadSL).Valid = false)) ∧
      (ValidateCommand openCmdLongBadSL).Errors =
        ["stop_loss must be below entry_price for LONG"] ∧
      (ValidateCommand openCmdLongBadSL).Valid = false) :=
  ⟨rfl, rfl, rfl, rfl,
    (validateCommand_open_price_logic openCmdLongBadSL rfl).1 SideLong 45000 46000 rfl rfl rfl,
    by decide, by decide⟩

theorem validateCommand_open_tp_sum_witness :
    openCmdTP110.Intent = IntentOpenPosition ∧
      openCmdTP110.TPLevels ≠ [] ∧
      (100 : ℚ) < totalPercentage openCmdTP110.TPLevels ∧
      ((ValidateCommand openCmdTP110).Errors.count
          ("TP percentages sum to " ++ sprintf1f (totalPercentage openCmdTP110.TPLevels) ++
            "%, cannot exceed 100%") = 1 ∧
        (ValidateCommand openCmdTP110).Valid = false) ∧
      sprintf1f (totalPercentage openCmdTP110.TPLevels) = "110.0" ∧
      (ValidateCommand openCmdTP110).Errors =
        ["TP percentages sum to 110.0%, cannot exceed 100%"] := by
  have h110 : totalPercentage openCmdTP110.TPLevels = (110 : ℚ) := by
    norm_num [totalPercentage, openCmdTP110, emptyCmd]
  have hlt : (100 : ℚ) < totalPercentage openCmdTP110.TPLevels := by rw [h110]; norm_num
  have hfmt : sprintf1f (totalPercentage openCmdTP110.TPLevels) = "110.0" := by
    rw [h110]
    have hm : (110 : ℚ) * 10 = 1100 := by norm_num
    unfold sprintf1f roundHalfEven
    rw [hm, show Rat.floor (1100 : ℚ) = 1100 from rfl]
    norm_num
    rfl
  have hErr : (ValidateCommand openCmdTP110).Errors =
      ["TP percentages sum to " ++ sprintf1f (totalPercentage openCmdTP110.TPLevels) ++
        "%, cannot exceed 100%"] := by
    rw [vc_open openCmdTP110 rfl]
    show openErrors openCmdTP110 = _
    unfold openErrors riskErrors priceErrors tpErrors
    norm_num [openCmdTP110, emptyCmd, SideLong, SideShort,
      show ("LONG" : String) ≠ "SHORT" from by decide,
      show totalPercentage [{ Price := 61000, Percentage := 60 },
        { Price := 62000, Percentage := 50 }] = (110 : ℚ) from by norm_num [totalPercentage]]
  refine ⟨rfl, by simp [openCmdTP110, emptyCmd], hlt,
    ((validateCommand_open_tp_sum openCmdTP110 rfl).1 (by simp [openCmdTP110, emptyCmd])).1 hlt,
    hfmt, ?_⟩
  rw [hErr, hfmt]
  rfl

theorem validateCommand_open_risk_range_witness :
    openCmdRiskZero.Intent = IntentOpenPosition ∧
      openCmdRiskZero.RiskPercent = some 0 ∧
      (("risk_percent must be between 0 and 100" ∈
            (ValidateCommand openCmdRiskZero).Errors ↔
          ((0 : ℚ) ≤ 0 ∨ (100 : ℚ) < 0)) ∧
        (((0 : ℚ) ≤ 0 ∨ (100 : ℚ) < 0) → (ValidateCommand openCmdRiskZero).Valid = false)) ∧
      "risk_percent must be between 0 and 100" ∈ (ValidateCommand openCmdRiskZero).Errors :=
  ⟨rfl, rfl, (validateCommand_open_risk_range openCmdRiskZero rfl).1 0 rfl, by decide⟩

theorem validateCommand_trailing_missing_witness :
    trailingCmdBare.Intent = IntentTrailingStop ∧
      ((ValidateCommand trailingCmdBare).Missing =
          (if trailingCmdBare.Symbol = "" then ["symbol"] else []) ++
          (if trailingCmdBare.TriggerPrice = none then ["trigger_price"] else []) ++
          (if trailingCmdBare.CallbackRate = none ∧ trailingCmdBare.Distance = none then
            ["callback_rate or distance"] else []) ∧
        ((trailingCmdBare.CallbackRate = none ∧ trailingCmdBare.Distance = none) →
          (ValidateCommand trailingCmdBare).Valid = false) ∧
        ((ValidateCommand trailingCmdBare).Missing.count "callback_rate or distance" =
          if trailingCmdBare.CallbackRate = none ∧ trailingCmdBare.Distance = none then 1
          else 0)) ∧
      (ValidateCommand trailingCmdBare).Missing =
        ["symbol", "trigger_price", "callback_rate or distance"] :=
  ⟨rfl, validateCommand_trailing_missing trailingCmdBare rfl, by decide⟩

theorem validateCommand_unknown_intent_witness :
    emptyCmd.Intent ∉ [IntentOpenPosition, IntentClosePosition, IntentTrailingStop,
        IntentBreakEven, IntentCancelOrders, IntentViewPositions, IntentViewOrders,
        IntentCheckBalance] ∧
      ((ValidateCommand emptyCmd).Valid = false ∧
        (ValidateCommand emptyCmd).Errors = ["unknown intent: " ++ emptyCmd.Intent] ∧
        (ValidateCommand emptyCmd).Missing = []) ∧
      (ValidateCommand emptyCmd).Errors = ["unknown intent: "] :=
  ⟨by decide, validateCommand_unknown_intent emptyCmd (by decide), by decide⟩

end IntentGo
